import Mathlib

/-!
Shallow embedding of the RustyRogue core (src/main.rs): map generation,
combat resolution, death handling, movement and basic AI, and the
explored-flag update performed during rendering.

Conventions of the embedding:
* machine integers (`i32`) become `Int`; all arithmetic the program performs
  stays far away from `i32` bounds, so no wrap-around modelling is needed;
* the map `Vec<Vec<Tile>>` becomes a total function `Int → Int → Tile`
  (the program never indexes out of bounds on the paths modelled here);
* `println!` output becomes an explicit `List Event` result, so that the
  emission of combat/death messages is observable in the model;
* random draws (`gen_range`, `rand::random`) become explicit parameters:
  a generation run is a function of the list of drawn values;
* the tcod FOV map is external to the repository, so visibility is a
  parameter `visible : Int → Int → Bool` wherever the code queries it;
* operations that can hit the `assert!` in `mut_two` return an `Option`,
  with `none` modelling the panic.
-/

/-- RGB colour triple; the concrete values mirror the tcod palette constants
used by the source (only identity/distinctness of colours matters here). -/
structure Color where
  r : Nat
  g : Nat
  b : Nat
deriving DecidableEq, Repr

def WHITE : Color := ⟨255, 255, 255⟩

def YELLOW : Color := ⟨255, 255, 0⟩

def DARK_RED : Color := ⟨191, 0, 0⟩

def DESATURATED_GREEN : Color := ⟨63, 127, 63⟩

def DARKER_GREEN : Color := ⟨0, 127, 0⟩

/-- `SCREEN_WIDTH` from the source. -/
def SCREEN_WIDTH : Int := 80

/-- `SCREEN_HEIGHT` from the source. -/
def SCREEN_HEIGHT : Int := 50

/-- `MAP_WIDTH` from the source. -/
def MAP_WIDTH : Int := 80

/-- `MAP_HEIGHT` from the source. -/
def MAP_HEIGHT : Int := 43

/-- `ROOM_MAX_SIZE` from the source. -/
def ROOM_MAX_SIZE : Int := 10

/-- `ROOM_MIN_SIZE` from the source. -/
def ROOM_MIN_SIZE : Int := 6

/-- `MAX_ROOMS` from the source. -/
def MAX_ROOMS : Nat := 30

/-- `MAX_ROOM_MONSTERS` from the source. -/
def MAX_ROOM_MONSTERS : Nat := 3

/-- `PLAYER` from the source: the player is always the first object. -/
def PLAYER : Nat := 0

/-- `DeathCallback` from the source. -/
inductive DeathCallback where
  | Player : DeathCallback
  | Monster : DeathCallback
deriving DecidableEq, Repr

/-- `Fighter` from the source: combat-related properties. -/
structure Fighter where
  max_hp : Int
  hp : Int
  defence : Int
  power : Int
  on_death : DeathCallback
deriving DecidableEq, Repr

/-- `Ai` from the source. -/
inductive Ai where
  | Basic : Ai
deriving DecidableEq, Repr

/-- `Object` from the source: a generic object (player, monster, NPC, …). -/
structure Object where
  x : Int
  y : Int
  sprite : Char
  colour : Color
  name : String
  blocks : Bool
  alive : Bool
  fighter : Option Fighter
  ai : Option Ai
deriving DecidableEq, Repr

/-- `Object::new` from the source. -/
def Object.new (x y : Int) (sprite : Char) (color : Color) (name : String)
    (blocks : Bool) : Object :=
  { x := x, y := y, sprite := sprite, colour := color, name := name,
    blocks := blocks, alive := false, fighter := none, ai := none }

/-- Placeholder used to total the `objects[i]` indexing of the source; every
theorem instantiates indices that are in bounds, where it is irrelevant. -/
def defaultObject : Object := Object.new 0 0 ' ' WHITE "" false

/-- `Object::pos` from the source. -/
def Object.pos (o : Object) : Int × Int := (o.x, o.y)

/-- `Object::set_pos` from the source. -/
def Object.set_pos (o : Object) (x y : Int) : Object := { o with x := x, y := y }

/-- Squared Euclidean distance between two objects. `Object::distance_to`
computes `((dx*dx + dy*dy) as f32).sqrt()`; at the grid scales of this
program the `f32` computation is exact enough that every comparison the
program does with the result is decided by the squared distance. -/
def Object.distance_sq (o other : Object) : Int :=
  (other.x - o.x) * (other.x - o.x) + (other.y - o.y) * (other.y - o.y)

/-- One `println!` emission of the core, as an observable event. -/
inductive Event where
  | attacked : String → String → Int → Event
  | noEffect : String → String → Event
  | playerDied : Event
  | monsterDied : String → Event
deriving DecidableEq, Repr

/-- `player_death` from the source: transform the player into a corpse and
report the game over ("You died!"). -/
def player_death (player : Object) : Object × List Event :=
  ({ player with sprite := '%', colour := DARK_RED }, [Event.playerDied])

/-- `monster_death` from the source: report the death (with the original
name), then turn the monster into a non-blocking corpse with no Fighter and
no AI, renamed to "remains of <original name>". -/
def monster_death (monster : Object) : Object × List Event :=
  ({ monster with
      sprite := '%', colour := DARK_RED, blocks := false,
      fighter := none, ai := none, name := "remains of " ++ monster.name },
   [Event.monsterDied monster.name])

/-- `DeathCallback::callback` from the source. -/
def DeathCallback.callback : DeathCallback → Object → Object × List Event
  | DeathCallback.Player, o => player_death o
  | DeathCallback.Monster, o => monster_death o

/-- `Object::take_damage` from the source: apply positive damage to the
Fighter's hp if a Fighter is present; then, if a Fighter is (still) present
with `hp <= 0`, clear `alive` and invoke the death callback. -/
def Object.take_damage (o : Object) (damage : Int) : Object × List Event :=
  let o1 :=
    match o.fighter with
    | some f => if 0 < damage then { o with fighter := some { f with hp := f.hp - damage } } else o
    | none => o
  match o1.fighter with
  | some f =>
      if f.hp ≤ 0 then DeathCallback.callback f.on_death { o1 with alive := false }
      else (o1, [])
  | none => (o1, [])

/-- `Object::attack` from the source: damage is attacker power minus target
defence (each defaulting to 0 without a Fighter); positive damage is applied
via `take_damage` after an attack event, otherwise a no-effect event is
emitted and the target is untouched. Returns the updated target (the
attacker is not mutated by the source) and the emitted events. -/
def Object.attack (a : Object) (target : Object) : Object × List Event :=
  let damage := (a.fighter.map Fighter.power).getD 0 -
    (target.fighter.map Fighter.defence).getD 0
  if 0 < damage then
    let r := target.take_damage damage
    (r.1, Event.attacked a.name target.name damage :: r.2)
  else
    (target, [Event.noEffect a.name target.name])

/-- `Tile` from the source. -/
structure Tile where
  blocked : Bool
  explored : Bool
  block_sight : Bool
deriving DecidableEq, Repr

/-- `Tile::empty` from the source. -/
def Tile.empty : Tile := ⟨false, false, false⟩

/-- `Tile::wall` from the source. -/
def Tile.wall : Tile := ⟨true, false, true⟩

/-- The map `Vec<Vec<Tile>>` (indexed `map[x][y]`), as a total function. -/
def GameMap : Type := Int → Int → Tile

/-- `Rect` from the source. -/
structure Rect where
  x1 : Int
  y1 : Int
  x2 : Int
  y2 : Int
deriving DecidableEq, Repr

/-- `Rect::new` from the source. -/
def Rect.new (x y w h : Int) : Rect := ⟨x, y, x + w, y + h⟩

/-- `Rect::centre` from the source (integer division; all coordinates the
program produces are non-negative, where Rust and Lean division agree). -/
def Rect.centre (r : Rect) : Int × Int := ((r.x1 + r.x2) / 2, (r.y1 + r.y2) / 2)

/-- `Rect::intersects_with` from the source: inclusive intersection test. -/
def Rect.intersects_with (r other : Rect) : Bool :=
  decide (r.x1 ≤ other.x2) && decide (r.x2 ≥ other.x1) &&
    decide (r.y1 ≤ other.y2) && decide (r.y2 ≥ other.y1)

/-- `PlayerAction` from the source. -/
inductive PlayerAction where
  | TookTurn : PlayerAction
  | DidntTakeTurn : PlayerAction
  | Exit : PlayerAction
deriving DecidableEq, Repr

/-- `create_room` from the source: carve the strict interior of the
rectangle (`x1+1 .. x2-1` × `y1+1 .. y2-1`) to empty tiles. -/
def create_room (room : Rect) (map : GameMap) : GameMap :=
  fun x y =>
    if room.x1 + 1 ≤ x ∧ x < room.x2 ∧ room.y1 + 1 ≤ y ∧ y < room.y2 then Tile.empty
    else map x y

/-- `create_h_tunnel` from the source: carve the row `y` from
`min x1 x2` to `max x1 x2` inclusive. -/
def create_h_tunnel (x1 x2 y : Int) (map : GameMap) : GameMap :=
  fun a b =>
    if min x1 x2 ≤ a ∧ a ≤ max x1 x2 ∧ b = y then Tile.empty else map a b

/-- `create_v_tunnel` from the source: carve the column `x` from
`min y1 y2` to `max y1 y2` inclusive. -/
def create_v_tunnel (y1 y2 x : Int) (map : GameMap) : GameMap :=
  fun a b =>
    if min y1 y2 ≤ b ∧ b ≤ max y1 y2 ∧ a = x then Tile.empty else map a b

/-- `is_blocked` from the source: a cell is blocked if its tile is blocked
or some blocking object stands on it. -/
def is_blocked (x y : Int) (map : GameMap) (objects : List Object) : Bool :=
  (map x y).blocked ||
    objects.any (fun o => o.blocks && decide (o.pos = (x, y)))

/-- `move_by` from the source: move object `id` by `(dx, dy)` unless the
target cell is blocked. -/
def move_by (id : Nat) (dx dy : Int) (map : GameMap) (objects : List Object) :
    List Object :=
  let o := objects.getD id defaultObject
  if is_blocked (o.x + dx) (o.y + dy) map objects then objects
  else objects.set id (o.set_pos (o.x + dx) (o.y + dy))

/-- The monster the source builds for an Orc draw (80% branch of
`place_objects`), after `alive` is set. -/
def orc_at (x y : Int) : Object :=
  { Object.new x y 'O' DESATURATED_GREEN "Orc" true with
      alive := true,
      fighter := some ⟨10, 10, 0, 3, DeathCallback.Monster⟩,
      ai := some Ai.Basic }

/-- The monster the source builds for a Troll draw (20% branch of
`place_objects`), after `alive` is set. -/
def troll_at (x y : Int) : Object :=
  { Object.new x y 'T' DARKER_GREEN "Troll" true with
      alive := true,
      fighter := some ⟨16, 16, 1, 4, DeathCallback.Monster⟩,
      ai := some Ai.Basic }

/-- One monster draw of `place_objects`: the position draws and the outcome
of the species draw (`rand::random::<f32>() < 0.8`). -/
structure MonsterDraw where
  x : Int
  y : Int
  isOrc : Bool
deriving DecidableEq, Repr

/-- `place_objects` from the source, with the random draws explicit: for
each draw, if the drawn cell is not blocked, push the drawn monster;
otherwise skip silently. The number of draws is the drawn monster count. -/
def place_objects (draws : List MonsterDraw) (objects : List Object)
    (map : GameMap) : List Object :=
  draws.foldl
    (fun objs d =>
      if is_blocked d.x d.y map objs then objs
      else objs ++ [if d.isOrc then orc_at d.x d.y else troll_at d.x d.y])
    objects

/-- The random draws of one `make_map` trial: room size and position, the
coin for the tunnel bend order, and the monster draws of `place_objects`. -/
structure Trial where
  w : Int
  h : Int
  x : Int
  y : Int
  coin : Bool
  draws : List MonsterDraw
deriving DecidableEq, Repr

/-- Ranges of the `gen_range` calls that produce a trial's draws in
`make_map` and `place_objects`. -/
def Trial.WF (t : Trial) : Prop :=
  ROOM_MIN_SIZE ≤ t.w ∧ t.w ≤ ROOM_MAX_SIZE ∧
  ROOM_MIN_SIZE ≤ t.h ∧ t.h ≤ ROOM_MAX_SIZE ∧
  0 ≤ t.x ∧ t.x < MAP_WIDTH - t.w ∧
  0 ≤ t.y ∧ t.y < MAP_HEIGHT - t.h ∧
  t.draws.length ≤ MAX_ROOM_MONSTERS ∧
  ∀ d ∈ t.draws, t.x + 1 ≤ d.x ∧ d.x < t.x + t.w ∧ t.y + 1 ≤ d.y ∧ d.y < t.y + t.h

instance (t : Trial) : Decidable t.WF := by
  unfold Trial.WF; infer_instance

/-- The mutable state of the `make_map` loop. -/
structure GenState where
  map : GameMap
  rooms : List Rect
  objects : List Object

/-- One iteration of the `make_map` loop on one trial: reject the room if it
intersects any accepted room; otherwise carve it, place its monsters, and
either set the player's position (first room) or carve the L-tunnel to the
previous room's centre (bend order by the coin). -/
def make_map_step (s : GenState) (t : Trial) : GenState :=
  let new_room := Rect.new t.x t.y t.w t.h
  let failed := s.rooms.any (fun other_room => new_room.intersects_with other_room)
  if failed then s
  else
    let map := create_room new_room s.map
    let objects := place_objects t.draws s.objects map
    let c := new_room.centre
    if s.rooms.isEmpty then
      { map := map, rooms := s.rooms ++ [new_room],
        objects := objects.set PLAYER
          ((objects.getD PLAYER defaultObject).set_pos c.1 c.2) }
    else
      let p := (s.rooms.getLastD (Rect.new 0 0 0 0)).centre
      let map2 :=
        if t.coin then create_v_tunnel p.2 c.2 c.1 (create_h_tunnel p.1 c.1 p.2 map)
        else create_h_tunnel p.1 c.1 c.2 (create_v_tunnel p.2 c.2 p.1 map)
      { map := map2, rooms := s.rooms ++ [new_room], objects := objects }

/-- The initial state of `make_map`: an all-wall map and no accepted rooms. -/
def initGenState (objects : List Object) : GenState :=
  { map := fun _ _ => Tile.wall, rooms := [], objects := objects }

/-- `make_map` from the source as a fold of its loop body over the trial
draws (the source runs exactly `MAX_ROOMS` trials, i.e. a list of length
`MAX_ROOMS`, with no retries). -/
def make_map_full (trials : List Trial) (objects : List Object) : GenState :=
  trials.foldl make_map_step (initGenState objects)

/-- The `(map, objects)` result of `make_map`. -/
def make_map (trials : List Trial) (objects : List Object) :
    GameMap × List Object :=
  ((make_map_full trials objects).map, (make_map_full trials objects).objects)

/-- The initial object list built in `main`: the player (index 0, with the
starting Fighter) and the neutral NPC. -/
def initial_objects : List Object :=
  [{ Object.new 0 0 '@' WHITE "Player" true with
       alive := true,
       fighter := some ⟨30, 30, 2, 5, DeathCallback.Player⟩ },
   { Object.new (SCREEN_WIDTH / 2 - 5) (SCREEN_HEIGHT / 2) '@' YELLOW "NPC" true with
       alive := true }]

/-- `iter().position(pred)` over the object list. -/
def position (p : Object → Bool) : List Object → Option Nat
  | [] => none
  | o :: rest => if p o then some 0 else (position p rest).map Nat.succ

/-- `player_move_or_attack` from the source: find the first object with a
Fighter on the target cell; attack it through `mut_two` (whose assertion
failure is modelled by `none`), or fall back to `move_by`. -/
def player_move_or_attack (dx dy : Int) (map : GameMap)
    (objects : List Object) : Option (List Object × List Event) :=
  let x := (objects.getD PLAYER defaultObject).x + dx
  let y := (objects.getD PLAYER defaultObject).y + dy
  let target_id :=
    position (fun o => o.fighter.isSome && decide (o.pos = (x, y))) objects
  match target_id with
  | some tid =>
      if tid = PLAYER then none
      else
        let r := Object.attack (objects.getD PLAYER defaultObject)
          (objects.getD tid defaultObject)
        some (objects.set tid r.1, r.2)
  | none => some (move_by PLAYER dx dy map objects, [])

/-- The decoded key intents `handle_keys` distinguishes. -/
inductive Intent where
  | toggleFullscreen : Intent
  | escape : Intent
  | up : Intent
  | down : Intent
  | left : Intent
  | right : Intent
  | other : Intent
deriving DecidableEq, Repr

/-- `handle_keys` from the source. Note that the source computes
`player_alive` and matches on it, but every arm uses a wildcard for it, so
the value never influences the outcome; the model mirrors that shape. -/
def handle_keys (intent : Intent) (map : GameMap) (objects : List Object) :
    Option (PlayerAction × List Object × List Event) :=
  let player_alive := (objects.getD PLAYER defaultObject).alive
  match intent, player_alive with
  | Intent.toggleFullscreen, _ => some (PlayerAction.DidntTakeTurn, objects, [])
  | Intent.escape, _ => some (PlayerAction.Exit, objects, [])
  | Intent.up, _ =>
      (player_move_or_attack 0 (-1) map objects).map
        (fun r => (PlayerAction.TookTurn, r))
  | Intent.down, _ =>
      (player_move_or_attack 0 1 map objects).map
        (fun r => (PlayerAction.TookTurn, r))
  | Intent.left, _ =>
      (player_move_or_attack (-1) 0 map objects).map
        (fun r => (PlayerAction.TookTurn, r))
  | Intent.right, _ =>
      (player_move_or_attack 1 0 map objects).map
        (fun r => (PlayerAction.TookTurn, r))
  | Intent.other, _ => some (PlayerAction.DidntTakeTurn, objects, [])

/-- One component of the normalized step of `move_towards`: the exact value
of `(d as f32 / distance).round() as i32` where `distance` is the square
root of `s = dx*dx + dy*dy`. For the integer displacements of this program
the `f32` computation never lands on a rounding boundary, and the rounded
quotient is `sign d` exactly when `4*d*d ≥ s`, else 0 (for `s = 0` Rust's
`NaN as i32` is 0, matched by the `d = 0` branch). -/
def norm_step (d s : Int) : Int :=
  if s ≤ 4 * d * d then (if 0 < d then 1 else if d < 0 then -1 else 0) else 0

/-- `move_towards` from the source: normalize the displacement to the target
to unit length, round each component, and `move_by` that step. -/
def move_towards (id : Nat) (target_x target_y : Int) (map : GameMap)
    (objects : List Object) : List Object :=
  let o := objects.getD id defaultObject
  let dx := target_x - o.x
  let dy := target_y - o.y
  let s := dx * dx + dy * dy
  move_by id (norm_step dx s) (norm_step dy s) map objects

/-- `ai_take_turn` from the source: if the monster's cell is visible, chase
the player when the distance is at least 2 (squared distance at least 4),
otherwise attack when the player's Fighter has positive hp. Visibility is
the externally computed FOV predicate; `none` models the `mut_two` panic. -/
def ai_take_turn (monster_id : Nat) (visible : Int → Int → Bool)
    (map : GameMap) (objects : List Object) :
    Option (List Object × List Event) :=
  let m := objects.getD monster_id defaultObject
  if visible m.x m.y then
    if 4 ≤ m.distance_sq (objects.getD PLAYER defaultObject) then
      some (move_towards monster_id (objects.getD PLAYER defaultObject).x
        (objects.getD PLAYER defaultObject).y map objects, [])
    else
      match (objects.getD PLAYER defaultObject).fighter with
      | some f =>
          if 0 < f.hp then
            if monster_id = PLAYER then none
            else
              let r := Object.attack (objects.getD monster_id defaultObject)
                (objects.getD PLAYER defaultObject)
              some (objects.set PLAYER r.1, r.2)
          else some (objects, [])
      | none => some (objects, [])
  else some (objects, [])

/-- The explored-flag update of the tile loop in `render_all`: every
in-bounds tile currently visible gets `explored := true`; no tile's
`explored` flag is ever cleared. -/
def render_explored (visible : Int → Int → Bool) (map : GameMap) : GameMap :=
  fun x y =>
    if 0 ≤ x ∧ x < MAP_WIDTH ∧ 0 ≤ y ∧ y < MAP_HEIGHT ∧ visible x y = true then
      { map x y with explored := true }
    else map x y

/-- Orthogonal adjacency between two floor cells of a map. -/
def AdjFloor (m : GameMap) (p q : Int × Int) : Prop :=
  (m p.1 p.2).blocked = false ∧ (m q.1 q.2).blocked = false ∧
    (p.1 - q.1).natAbs + (p.2 - q.2).natAbs = 1

/-- Reachability along orthogonally adjacent floor cells. -/
def Reachable (m : GameMap) (p q : Int × Int) : Prop :=
  Relation.ReflTransGen (AdjFloor m) p q

/-- The player's position in an object list. -/
def playerPos (objects : List Object) : Int × Int :=
  ((objects.getD PLAYER defaultObject).x, (objects.getD PLAYER defaultObject).y)

/-- Invariant carried through the `make_map` loop: the object list is
nonempty, every floor cell is reachable from the player's position, the
player sits on the first accepted room's centre once one exists, the last
accepted room's centre is floor, and with no accepted room the map is all
wall. -/
def GenInv (s : GenState) : Prop :=
  s.objects ≠ [] ∧
  (∀ x y, (s.map x y).blocked = false → Reachable s.map (playerPos s.objects) (x, y)) ∧
  (∀ r rs, s.rooms = r :: rs → playerPos s.objects = r.centre) ∧
  (s.rooms ≠ [] →
    (s.map ((s.rooms.getLastD (Rect.new 0 0 0 0)).centre).1
      ((s.rooms.getLastD (Rect.new 0 0 0 0)).centre).2).blocked = false) ∧
  (s.rooms = [] → ∀ x y, (s.map x y).blocked = true)

/-- A map with only floor tiles, for concrete scenarios. -/
def emptyMap : GameMap := fun _ _ => Tile.empty

/-- A visibility predicate that sees everything, for concrete scenarios. -/
def fullVisible : Int → Int → Bool := fun _ _ => true

/-- A live player with the starting Fighter, at (3, 3). -/
def samplePlayer : Object :=
  { Object.new 3 3 '@' WHITE "Player" true with
      alive := true, fighter := some ⟨30, 30, 2, 5, DeathCallback.Player⟩ }

/-- A player on whom the death transition has already run: `alive = false`,
corpse glyph and colour, Fighter still present with non-positive hp. -/
def deadPlayer : Object :=
  { Object.new 3 3 '%' DARK_RED "Player" true with
      alive := false, fighter := some ⟨30, -2, 2, 5, DeathCallback.Player⟩ }

/-- An attacker with power 2, for the zero-damage scenario. -/
def weakAttacker : Object :=
  { Object.new 0 0 '@' WHITE "Weakling" true with
      alive := true, fighter := some ⟨30, 30, 0, 2, DeathCallback.Player⟩ }

/-- A defender with defence 5, for the zero-damage scenario. -/
def armoredDefender : Object :=
  { Object.new 1 0 'D' WHITE "Dummy" true with
      alive := true, fighter := some ⟨10, 10, 5, 0, DeathCallback.Monster⟩ }

/-- A defender with defence 2 and hp 10, for the 3-damage scenario. -/
def lightDefender : Object :=
  { Object.new 1 0 'd' WHITE "Target" true with
      alive := true, fighter := some ⟨10, 10, 2, 0, DeathCallback.Monster⟩ }

/-- A well-formed trial: a 6×6 room at the origin, no monster draws. -/
def sampleTrial : Trial := ⟨6, 6, 0, 0, true, []⟩

/-- A trial whose single monster draw hits the room's centre (3, 3). -/
def overlapTrial : Trial := ⟨6, 6, 0, 0, true, [⟨3, 3, true⟩]⟩

/-- A generation state that already accepted the 6×6 room at the origin. -/
def sampleGenState : GenState :=
  { map := fun _ _ => Tile.wall, rooms := [Rect.new 0 0 6 6], objects := [] }

/-! ## Theorems -/

/-- C2: `attack` deals `max 0 (attacker.power - defender.defence)` damage:
positive damage is subtracted from the defender's hp (stated here for a
surviving defender), zero or negative damage leaves the defender unchanged
and only emits a no-effect event. -/
theorem C2_attack_damage (attacker defender : Object) (fa fd : Fighter)
    (ha : attacker.fighter = some fa) (hd : defender.fighter = some fd)
    (hsurv : 0 < fd.hp - (fa.power - fd.defence)) :
    (0 < fa.power - fd.defence →
      Object.attack attacker defender =
        ({ defender with fighter := some { fd with hp := fd.hp - (fa.power - fd.defence) } },
         [Event.attacked attacker.name defender.name (fa.power - fd.defence)])) ∧
    (fa.power - fd.defence ≤ 0 →
      Object.attack attacker defender =
        (defender, [Event.noEffect attacker.name defender.name])) := by
  constructor
  · intro hpos
    simp only [Object.attack, Object.take_damage, ha, hd, Option.map_some',
      Option.getD_some, if_pos hpos]
    have hns : ¬ (fd.hp - (fa.power - fd.defence) ≤ 0) := by omega
    simp [hns]
  · intro hneg
    have hns : ¬ (0 < fa.power - fd.defence) := by omega
    simp only [Object.attack, ha, hd, Option.map_some', Option.getD_some]
    simp [hns]

/-- C2 witness: the player's stats (power 5) against defence 2 deal exactly
3 damage; power 2 against defence 5 deals nothing and changes nothing. -/
theorem C2_attack_damage_witness :
    samplePlayer.fighter = some ⟨30, 30, 2, 5, DeathCallback.Player⟩ ∧
    Object.attack samplePlayer lightDefender =
      ({ lightDefender with fighter := some ⟨10, 7, 2, 0, DeathCallback.Monster⟩ },
       [Event.attacked "Player" "Target" 3]) ∧
    Object.attack weakAttacker armoredDefender =
      (armoredDefender, [Event.noEffect "Weakling" "Dummy"]) := by
  refine ⟨rfl, ?_, ?_⟩
  · exact (C2_attack_damage samplePlayer lightDefender
      ⟨30, 30, 2, 5, DeathCallback.Player⟩ ⟨10, 10, 2, 0, DeathCallback.Monster⟩
      rfl rfl (by decide)).1 (by decide)
  · exact (C2_attack_damage weakAttacker armoredDefender
      ⟨30, 30, 0, 2, DeathCallback.Player⟩ ⟨10, 10, 5, 0, DeathCallback.Monster⟩
      rfl rfl (by decide)).2 (by decide)

/-- C3 counterexample: the claim says a second `take_damage` on an
already-dead entity is a no-op with no death-policy re-invocation for both
death policies; but on a dead player (whose Fighter persists) `take_damage 5`
re-emits the player-death event and further decrements hp. -/
theorem C3_counterexample :
    deadPlayer.alive = false ∧
    (deadPlayer.take_damage 5).2 = [Event.playerDied] ∧
    (deadPlayer.take_damage 5).1.fighter = some ⟨30, -7, 2, 5, DeathCallback.Player⟩ ∧
    deadPlayer.fighter = some ⟨30, -2, 2, 5, DeathCallback.Player⟩ := by
  decide

/-- C3 (amended): a second `take_damage` on a dead entity is a guaranteed
no-op (no state change, no event) only when the death policy removed the
Fighter, as monster-death does; on the dead player, whose Fighter persists,
a positive amount re-invokes the player-death policy and decrements hp
further, though the name is unchanged and the glyph stays the corpse glyph. -/
theorem C3_take_damage_dead :
    (∀ (o : Object) (damage : Int), o.fighter = none →
      o.take_damage damage = (o, [])) ∧
    (∀ (o : Object) (f : Fighter) (damage : Int),
      o.alive = false → o.fighter = some f → f.on_death = DeathCallback.Player →
      f.hp ≤ 0 → 0 < damage →
      (o.take_damage damage).1.name = o.name ∧
      (o.take_damage damage).1.sprite = '%' ∧
      (o.take_damage damage).1.fighter = some { f with hp := f.hp - damage } ∧
      (o.take_damage damage).2 = [Event.playerDied]) := by
  constructor
  · intro o damage h
    simp [Object.take_damage, h]
  · intro o f damage halive hf hdeath hhp hdmg
    have hle : f.hp - damage ≤ 0 := by omega
    simp [Object.take_damage, hf, hdmg, hle, hdeath, DeathCallback.callback,
      player_death]

/-- C3 witness: the no-Fighter branch at a monster corpse, and the dead
player branch at `deadPlayer`. -/
theorem C3_take_damage_dead_witness :
    (monster_death (orc_at 4 4)).1.take_damage 7 = ((monster_death (orc_at 4 4)).1, []) ∧
    (deadPlayer.take_damage 5).1.name = deadPlayer.name ∧
    (deadPlayer.take_damage 5).1.sprite = '%' := by
  refine ⟨?_, ?_, ?_⟩
  · exact (C3_take_damage_dead).1 (monster_death (orc_at 4 4)).1 7 (by decide)
  · exact ((C3_take_damage_dead).2 deadPlayer ⟨30, -2, 2, 5, DeathCallback.Player⟩ 5
      (by decide) (by decide) (by decide) (by decide) (by decide)).1
  · exact ((C3_take_damage_dead).2 deadPlayer ⟨30, -2, 2, 5, DeathCallback.Player⟩ 5
      (by decide) (by decide) (by decide) (by decide) (by decide)).2.1

/-- C7: the explored flag is monotonic: a visibility recompute marks every
visible in-bounds tile explored, and no sequence of recomputes ever clears
an explored flag (turn steps never touch tiles at all). -/
theorem C7_explored_monotonic :
    (∀ (v : Int → Int → Bool) (m : GameMap) (x y : Int),
      0 ≤ x → x < MAP_WIDTH → 0 ≤ y → y < MAP_HEIGHT → v x y = true →
      ((render_explored v m) x y).explored = true) ∧
    (∀ (vs : List (Int → Int → Bool)) (m : GameMap) (x y : Int),
      (m x y).explored = true →
      ((vs.foldl (fun acc v => render_explored v acc) m) x y).explored = true) := by
  constructor
  · intro v m x y h1 h2 h3 h4 h5
    simp [render_explored, h1, h2, h3, h4, h5]
  · intro vs
    induction vs with
    | nil => intro m x y h; simpa using h
    | cons v rest ih =>
        intro m x y h
        refine ih (render_explored v m) x y ?_
        simp only [render_explored]
        split
        · rfl
        · exact h

/-- C7 witness: a fully visible recompute marks the origin tile explored,
and an explored flag survives a further recompute. -/
theorem C7_explored_monotonic_witness :
    ((render_explored fullVisible emptyMap) 0 0).explored = true ∧
    (([fullVisible].foldl (fun acc v => render_explored v acc)
        (render_explored fullVisible emptyMap)) 0 0).explored = true := by
  refine ⟨?_, ?_⟩
  · exact C7_explored_monotonic.1 fullVisible emptyMap 0 0 (by decide) (by decide)
      (by decide) (by decide) (by decide)
  · exact C7_explored_monotonic.2 [fullVisible] (render_explored fullVisible emptyMap)
      0 0 (C7_explored_monotonic.1 fullVisible emptyMap 0 0 (by decide) (by decide)
        (by decide) (by decide) (by decide))

/-- C8: the claim says a dead player's movement intents have no simulation
effect; but `handle_keys` computes `player_alive` and then ignores it in
every arm, so an Up intent relocates the dead player (and counts as a
turn). The source's own `player_alive` binding marks the intent. -/
theorem C8_dead_player_still_moves :
    deadPlayer.alive = false ∧
    handle_keys Intent.up emptyMap [deadPlayer] =
      some (PlayerAction.TookTurn, [{ deadPlayer with y := 2 }], []) := by
  decide
/-- C10: concrete generation run (MAX_ROOMS trials, first accepted, rest
rejected for overlap) where the single monster draw lands on the first
room's centre: the monster is accepted because the player has not yet been
repositioned there, so generation ends with a blocking monster standing on
the player's start cell. -/
theorem C10_monster_on_player_start :
    ((make_map (List.replicate MAX_ROOMS overlapTrial) initial_objects).2.getD 2
        defaultObject).blocks = true ∧
    ((make_map (List.replicate MAX_ROOMS overlapTrial) initial_objects).2.getD 2
        defaultObject).pos =
      playerPos (make_map (List.replicate MAX_ROOMS overlapTrial) initial_objects).2 ∧
    playerPos (make_map (List.replicate MAX_ROOMS overlapTrial) initial_objects).2 =
      (Rect.new 0 0 6 6).centre := by
  decide
/-- The inclusive intersection test is symmetric. -/
theorem Rect.intersects_comm (a b : Rect) :
    a.intersects_with b = b.intersects_with a := by
  simp only [Rect.intersects_with, ge_iff_le]
  rw [Bool.eq_iff_iff]
  simp only [Bool.and_eq_true, decide_eq_true_eq]
  tauto

/-- The rooms list of one `make_map` iteration: unchanged on a rejected
trial, extended by the trial's rectangle on an accepted one. -/
theorem make_map_step_rooms (s : GenState) (t : Trial) :
    ((s.rooms.any fun r => (Rect.new t.x t.y t.w t.h).intersects_with r) = true ∧
      (make_map_step s t).rooms = s.rooms) ∨
    ((s.rooms.any fun r => (Rect.new t.x t.y t.w t.h).intersects_with r) = false ∧
      (make_map_step s t).rooms = s.rooms ++ [Rect.new t.x t.y t.w t.h]) := by
  by_cases hf : (s.rooms.any fun r => (Rect.new t.x t.y t.w t.h).intersects_with r) = true
  · left
    refine ⟨hf, ?_⟩
    simp only [make_map_step, hf, if_true]
  · right
    rw [Bool.not_eq_true] at hf
    refine ⟨hf, ?_⟩
    simp only [make_map_step, hf, Bool.false_eq_true, if_false]
    by_cases he : s.rooms.isEmpty
    · simp [he]
    · simp [he]

/-- Accepted rooms remain pairwise non-intersecting across one iteration. -/
theorem rooms_pairwise_step (s : GenState) (t : Trial)
    (h : s.rooms.Pairwise fun a b => a.intersects_with b = false) :
    (make_map_step s t).rooms.Pairwise fun a b => a.intersects_with b = false := by
  rcases make_map_step_rooms s t with ⟨_, heq⟩ | ⟨hf, heq⟩
  · rw [heq]; exact h
  · rw [heq, List.pairwise_append]
    refine ⟨h, by simp, ?_⟩
    intro a ha b hb
    simp only [List.mem_singleton] at hb
    subst hb
    rw [List.any_eq_false] at hf
    have := hf a ha
    rw [Rect.intersects_comm]
    simpa using this

/-- Accepted rooms of a whole generation run are pairwise non-intersecting. -/
theorem rooms_pairwise_fold (trials : List Trial) (s : GenState)
    (h : s.rooms.Pairwise fun a b => a.intersects_with b = false) :
    (trials.foldl make_map_step s).rooms.Pairwise
      fun a b => a.intersects_with b = false := by
  induction trials generalizing s with
  | nil => simpa using h
  | cons t ts ih => exact ih (make_map_step s t) (rooms_pairwise_step s t h)

/-- At most one room is accepted per trial. -/
theorem rooms_length_fold (trials : List Trial) (s : GenState) :
    (trials.foldl make_map_step s).rooms.length ≤ s.rooms.length + trials.length := by
  induction trials generalizing s with
  | nil => simp
  | cons t ts ih =>
      have h1 := ih (make_map_step s t)
      have h2 : (make_map_step s t).rooms.length ≤ s.rooms.length + 1 := by
        rcases make_map_step_rooms s t with ⟨_, heq⟩ | ⟨_, heq⟩ <;> simp [heq]
      simp only [List.foldl_cons, List.length_cons]
      omega

/-- C4: a rejected trial leaves the whole generation state (map, rooms,
entities) untouched, every pair of distinct accepted rooms fails the
inclusive intersection test, and a run over the `MAX_ROOMS` trials accepts
at most one room per trial (the source loop runs exactly `MAX_ROOMS` trials
with no retries, modelled by folding over a list of that length). -/
theorem C4_rooms_disjoint (trials : List Trial) (objects : List Object)
    (s : GenState) (t : Trial)
    (hfail : (s.rooms.any fun r => (Rect.new t.x t.y t.w t.h).intersects_with r) = true) :
    make_map_step s t = s ∧
    (make_map_full trials objects).rooms.Pairwise
      (fun a b => a.intersects_with b = false) ∧
    (make_map_full trials objects).rooms.length ≤ trials.length := by
  refine ⟨?_, ?_, ?_⟩
  · simp only [make_map_step, hfail, if_true]
  · exact rooms_pairwise_fold trials (initGenState objects) (by simp [initGenState])
  · simpa [initGenState] using rooms_length_fold trials (initGenState objects)

/-- C4 witness: a trial identical to the already-accepted room is rejected
and mutates nothing; the concrete one-trial run yields pairwise
non-intersecting rooms. -/
theorem C4_rooms_disjoint_witness :
    ((sampleGenState.rooms.any fun r =>
        (Rect.new sampleTrial.x sampleTrial.y sampleTrial.w sampleTrial.h).intersects_with r) = true) ∧
    make_map_step sampleGenState sampleTrial = sampleGenState := by
  refine ⟨by decide, ?_⟩
  exact (C4_rooms_disjoint [sampleTrial] initial_objects sampleGenState sampleTrial
    (by decide)).1
/-- The object found by `position` satisfies the predicate. -/
theorem position_getD {p : Object → Bool} {l : List Object} {i : Nat}
    (h : position p l = some i) : p (l.getD i defaultObject) = true := by
  induction l generalizing i with
  | nil => simp [position] at h
  | cons o rest ih =>
      by_cases hp : p o = true
      · simp only [position] at h
        rw [if_pos hp] at h
        simp only [Option.some.injEq] at h
        subst h
        simpa using hp
      · simp only [position] at h
        rw [if_neg hp] at h
        cases hrest : position p rest with
        | none => rw [hrest] at h; simp at h
        | some j =>
            rw [hrest] at h
            simp only [Option.map_some', Option.some.injEq] at h
            subst h
            simpa using ih hrest

/-- With a nonzero movement delta, the Fighter target found on the target
cell is never the player itself (its cell differs from the player's). -/
theorem target_ne_player {dx dy : Int} {objects : List Object} {tid : Nat}
    (hdelta : ¬(dx = 0 ∧ dy = 0))
    (h : position (fun o => o.fighter.isSome &&
        decide (o.pos = ((objects.getD PLAYER defaultObject).x + dx,
          (objects.getD PLAYER defaultObject).y + dy))) objects = some tid) :
    tid ≠ PLAYER := by
  intro heq
  subst heq
  have hpred := position_getD h
  simp only [Bool.and_eq_true, decide_eq_true_eq, Object.pos, Prod.mk.injEq] at hpred
  exact hdelta ⟨by omega, by omega⟩

/-- C5: resolving a movement intent: when some Fighter-bearing object (of
any faction) stands on the target cell the player attacks it; otherwise a
blocked target cell changes nothing; otherwise the player relocates; and
each movement intent resolves through `handle_keys` to `TookTurn`. -/
theorem C5_player_move_or_attack (dx dy : Int) (map : GameMap)
    (objects : List Object) (hdelta : ¬(dx = 0 ∧ dy = 0)) :
    (∀ tid, position (fun o => o.fighter.isSome &&
        decide (o.pos = ((objects.getD PLAYER defaultObject).x + dx,
          (objects.getD PLAYER defaultObject).y + dy))) objects = some tid →
      player_move_or_attack dx dy map objects =
        some (objects.set tid
            (Object.attack (objects.getD PLAYER defaultObject)
              (objects.getD tid defaultObject)).1,
          (Object.attack (objects.getD PLAYER defaultObject)
            (objects.getD tid defaultObject)).2)) ∧
    (position (fun o => o.fighter.isSome &&
        decide (o.pos = ((objects.getD PLAYER defaultObject).x + dx,
          (objects.getD PLAYER defaultObject).y + dy))) objects = none →
      is_blocked ((objects.getD PLAYER defaultObject).x + dx)
          ((objects.getD PLAYER defaultObject).y + dy) map objects = true →
      player_move_or_attack dx dy map objects = some (objects, [])) ∧
    (position (fun o => o.fighter.isSome &&
        decide (o.pos = ((objects.getD PLAYER defaultObject).x + dx,
          (objects.getD PLAYER defaultObject).y + dy))) objects = none →
      is_blocked ((objects.getD PLAYER defaultObject).x + dx)
          ((objects.getD PLAYER defaultObject).y + dy) map objects = false →
      player_move_or_attack dx dy map objects =
        some (objects.set PLAYER
            ((objects.getD PLAYER defaultObject).set_pos
              ((objects.getD PLAYER defaultObject).x + dx)
              ((objects.getD PLAYER defaultObject).y + dy)), [])) ∧
    (∀ res, player_move_or_attack dx dy map objects = some res →
      ∀ intent, (intent = Intent.up ∧ (dx, dy) = (0, -1)) ∨
          (intent = Intent.down ∧ (dx, dy) = (0, 1)) ∨
          (intent = Intent.left ∧ (dx, dy) = (-1, 0)) ∨
          (intent = Intent.right ∧ (dx, dy) = (1, 0)) →
        handle_keys intent map objects = some (PlayerAction.TookTurn, res)) := by
  refine ⟨?_, ?_, ?_, ?_⟩
  · intro tid hpos
    have hne : tid ≠ PLAYER := target_ne_player hdelta hpos
    simp only [player_move_or_attack, hpos, hne, if_false]
  · intro hpos hblocked
    simp only [player_move_or_attack, hpos, move_by, hblocked, if_true]
  · intro hpos hfree
    simp only [player_move_or_attack, hpos, move_by, hfree, Bool.false_eq_true,
      if_false]
  · intro res hres intent hintent
    rcases hintent with ⟨rfl, hd⟩ | ⟨rfl, hd⟩ | ⟨rfl, hd⟩ | ⟨rfl, hd⟩ <;>
      (injection hd with hd1 hd2; subst hd1; subst hd2;
        simp [handle_keys, hres])
/-- C5 witness: with the player at (3, 3) and an Orc at (3, 2), the Up
intent finds the Orc as target index 1 and resolves as an attack. -/
theorem C5_player_move_or_attack_witness :
    ¬((0:Int) = 0 ∧ (-1:Int) = 0) ∧
    player_move_or_attack 0 (-1) emptyMap [samplePlayer, orc_at 3 2] =
      some ([samplePlayer, orc_at 3 2].set 1
          (Object.attack ([samplePlayer, orc_at 3 2].getD PLAYER defaultObject)
            ([samplePlayer, orc_at 3 2].getD 1 defaultObject)).1,
        (Object.attack ([samplePlayer, orc_at 3 2].getD PLAYER defaultObject)
          ([samplePlayer, orc_at 3 2].getD 1 defaultObject)).2) := by
  refine ⟨by decide, ?_⟩
  exact (C5_player_move_or_attack 0 (-1) emptyMap [samplePlayer, orc_at 3 2]
    (by decide)).1 1 (by decide)

/-- `place_objects` only appends monsters to the incoming object list. -/
theorem place_objects_shape : ∀ (draws : List MonsterDraw) (objects : List Object)
    (map : GameMap), ∃ tail, place_objects draws objects map = objects ++ tail
  | [], objects, map => ⟨[], by simp [place_objects]⟩
  | d :: rest, objects, map => by
      have hstep : place_objects (d :: rest) objects map =
          place_objects rest
            (if is_blocked d.x d.y map objects then objects
             else objects ++ [if d.isOrc then orc_at d.x d.y else troll_at d.x d.y])
            map := by
        simp [place_objects]
      rw [hstep]
      by_cases hb : is_blocked d.x d.y map objects = true
      · rw [if_pos hb]
        exact place_objects_shape rest objects map
      · rw [if_neg hb]
        obtain ⟨tl, htl⟩ :=
          place_objects_shape rest
            (objects ++ [if d.isOrc then orc_at d.x d.y else troll_at d.x d.y]) map
        exact ⟨(if d.isOrc then orc_at d.x d.y else troll_at d.x d.y) :: tl,
          by rw [htl, List.append_assoc]; rfl⟩

/-- `place_objects` keeps index 0 intact and preserves nonemptiness. -/
theorem place_objects_getD_zero (draws : List MonsterDraw) (objects : List Object)
    (map : GameMap) (h : objects ≠ []) :
    (place_objects draws objects map).getD 0 defaultObject =
      objects.getD 0 defaultObject ∧
    place_objects draws objects map ≠ [] := by
  obtain ⟨tl, htl⟩ := place_objects_shape draws objects map
  cases objects with
  | nil => exact absurd rfl h
  | cons o rest => rw [htl]; exact ⟨by simp, by simp⟩

/-- Setting index 0 of a nonempty list makes it the value at index 0. -/
theorem getD_zero_set_zero (objects : List Object) (v : Object) (h : objects ≠ []) :
    (objects.set 0 v).getD 0 defaultObject = v := by
  cases objects with
  | nil => exact absurd rfl h
  | cons o rest => rfl

/-- One `make_map` iteration keeps the object list nonempty and does not
change the AI tag of the object at index 0 (only its position may move). -/
theorem make_map_step_player_ai (s : GenState) (t : Trial) (h : s.objects ≠ []) :
    (make_map_step s t).objects ≠ [] ∧
    ((make_map_step s t).objects.getD 0 defaultObject).ai =
      (s.objects.getD 0 defaultObject).ai := by
  by_cases hf : (s.rooms.any fun r =>
      (Rect.new t.x t.y t.w t.h).intersects_with r) = true
  · simp only [make_map_step, hf, if_true]
    exact ⟨h, trivial⟩
  · rw [Bool.not_eq_true] at hf
    obtain ⟨hp1, hp2⟩ := place_objects_getD_zero t.draws s.objects
      (create_room (Rect.new t.x t.y t.w t.h) s.map) h
    simp only [make_map_step, hf, Bool.false_eq_true, if_false]
    by_cases he : s.rooms.isEmpty
    · simp only [he, if_true, PLAYER]
      constructor
      · intro hcon
        exact hp2 (List.length_eq_zero.mp (by simpa using congrArg List.length hcon))
      · rw [getD_zero_set_zero _ _ hp2, Object.set_pos]
        rw [hp1]
    · simp only [he, Bool.false_eq_true, if_false]
      exact ⟨hp2, by rw [hp1]⟩

/-- Generation keeps the object list nonempty and the player AI-free. -/
theorem make_map_player_ai (trials : List Trial) (s : GenState)
    (h : s.objects ≠ []) (hai : (s.objects.getD 0 defaultObject).ai = none) :
    (trials.foldl make_map_step s).objects ≠ [] ∧
    ((trials.foldl make_map_step s).objects.getD 0 defaultObject).ai = none := by
  induction trials generalizing s with
  | nil => exact ⟨h, hai⟩
  | cons t ts ih =>
      obtain ⟨h1, h2⟩ := make_map_step_player_ai s t h
      exact ih (make_map_step s t) h1 (h2.trans hai)

/-- C9: both simultaneous-mutable-access operations go through the modelled
`mut_two` index assertion, and it never fires: a nonzero movement delta
means the player's attack target index differs from `PLAYER`, an AI-tagged
attacker's index differs from the AI-free player index, and generation
never gives the player (index 0) an AI tag. -/
theorem C9_mut_two_indices_differ :
    (∀ (dx dy : Int) (map : GameMap) (objects : List Object), ¬(dx = 0 ∧ dy = 0) →
      player_move_or_attack dx dy map objects ≠ none) ∧
    (∀ (monster_id : Nat) (visible : Int → Int → Bool) (map : GameMap)
        (objects : List Object),
      (objects.getD PLAYER defaultObject).ai = none →
      (objects.getD monster_id defaultObject).ai ≠ none →
      ai_take_turn monster_id visible map objects ≠ none) ∧
    (∀ trials, ((make_map trials initial_objects).2.getD PLAYER defaultObject).ai
      = none) := by
  refine ⟨?_, ?_, ?_⟩
  · intro dx dy map objects hdelta
    cases hpos : position (fun o => o.fighter.isSome &&
        decide (o.pos = ((objects.getD PLAYER defaultObject).x + dx,
          (objects.getD PLAYER defaultObject).y + dy))) objects with
    | none =>
        simp only [player_move_or_attack]
        rw [hpos]
        simp
    | some tid =>
        have hne : tid ≠ PLAYER := target_ne_player hdelta hpos
        simp only [player_move_or_attack]
        rw [hpos]
        simp [hne]
  · intro monster_id visible map objects hpai hmai
    have hne : monster_id ≠ PLAYER := fun hc => hmai (by rw [hc]; exact hpai)
    simp only [ai_take_turn]
    split
    · split
      · simp
      · split
        · split
          · simp
          · simp
        · simp
    · simp
  · intro trials
    have h0 : initial_objects ≠ [] := by simp [initial_objects]
    have h1 : (initial_objects.getD 0 defaultObject).ai = none := by decide
    exact (make_map_player_ai trials (initGenState initial_objects) h0 h1).2

/-- C9 witness: a concrete rightward move and a concrete AI turn both avoid
the equal-indices panic. -/
theorem C9_mut_two_indices_differ_witness :
    ¬((1:Int) = 0 ∧ (0:Int) = 0) ∧
    player_move_or_attack 1 0 emptyMap [samplePlayer] ≠ none ∧
    ai_take_turn 1 fullVisible emptyMap [samplePlayer, orc_at 10 3] ≠ none := by
  refine ⟨by decide, ?_, ?_⟩
  · exact C9_mut_two_indices_differ.1 1 0 emptyMap [samplePlayer] (by decide)
  · exact C9_mut_two_indices_differ.2.1 1 fullVisible emptyMap
      [samplePlayer, orc_at 10 3] (by decide) (by decide)
/-- C6: the basic AI step: an AI entity on a tile outside the computed
visible set does nothing; a visible one at squared distance at least 4
(Euclidean distance at least 2.0) takes the normalized-and-rounded unit
step toward the player via `move_towards` (which moves only when the target
cell is unblocked, with no retry); a visible one closer than that attacks
the player through the combat resolver exactly when the player is alive
(the source tests the Fighter's hp, which the `halive` invariant ties to
the `alive` flag). -/
theorem C6_ai_turn (monster_id : Nat) (visible : Int → Int → Bool)
    (map : GameMap) (objects : List Object)
    (hmai : (objects.getD monster_id defaultObject).ai ≠ none)
    (hpai : (objects.getD PLAYER defaultObject).ai = none)
    (halive : (objects.getD PLAYER defaultObject).alive =
      ((objects.getD PLAYER defaultObject).fighter.map
        (fun f => decide (0 < f.hp))).getD false) :
    (visible (objects.getD monster_id defaultObject).x
        (objects.getD monster_id defaultObject).y = false →
      ai_take_turn monster_id visible map objects = some (objects, [])) ∧
    (visible (objects.getD monster_id defaultObject).x
        (objects.getD monster_id defaultObject).y = true →
      4 ≤ (objects.getD monster_id defaultObject).distance_sq
        (objects.getD PLAYER defaultObject) →
      ai_take_turn monster_id visible map objects =
        some (move_towards monster_id (objects.getD PLAYER defaultObject).x
          (objects.getD PLAYER defaultObject).y map objects, [])) ∧
    (visible (objects.getD monster_id defaultObject).x
        (objects.getD monster_id defaultObject).y = true →
      (objects.getD monster_id defaultObject).distance_sq
        (objects.getD PLAYER defaultObject) < 4 →
      (objects.getD PLAYER defaultObject).alive = true →
      ai_take_turn monster_id visible map objects =
        some (objects.set PLAYER
            (Object.attack (objects.getD monster_id defaultObject)
              (objects.getD PLAYER defaultObject)).1,
          (Object.attack (objects.getD monster_id defaultObject)
            (objects.getD PLAYER defaultObject)).2)) ∧
    (visible (objects.getD monster_id defaultObject).x
        (objects.getD monster_id defaultObject).y = true →
      (objects.getD monster_id defaultObject).distance_sq
        (objects.getD PLAYER defaultObject) < 4 →
      (objects.getD PLAYER defaultObject).alive = false →
      ai_take_turn monster_id visible map objects = some (objects, [])) ∧
    (∀ (id : Nat) (dx dy : Int),
      (is_blocked ((objects.getD id defaultObject).x + dx)
          ((objects.getD id defaultObject).y + dy) map objects = true →
        move_by id dx dy map objects = objects) ∧
      (is_blocked ((objects.getD id defaultObject).x + dx)
          ((objects.getD id defaultObject).y + dy) map objects = false →
        move_by id dx dy map objects =
          objects.set id ((objects.getD id defaultObject).set_pos
            ((objects.getD id defaultObject).x + dx)
            ((objects.getD id defaultObject).y + dy)))) := by
  have hne : monster_id ≠ PLAYER := fun hc => hmai (by rw [hc]; exact hpai)
  refine ⟨?_, ?_, ?_, ?_, ?_⟩
  · intro hv
    simp only [ai_take_turn, hv, Bool.false_eq_true, if_false]
  · intro hv hd
    simp only [ai_take_turn, hv, if_true, if_pos hd]
  · intro hv hd halv
    have hlt : ¬ 4 ≤ (objects.getD monster_id defaultObject).distance_sq
        (objects.getD PLAYER defaultObject) := by omega
    rw [halive] at halv
    simp only [ai_take_turn, hv, if_true, if_neg hlt]
    cases hf : (objects.getD PLAYER defaultObject).fighter with
    | none => rw [hf] at halv; simp at halv
    | some f =>
        rw [hf] at halv
        simp only [Option.map_some', Option.getD_some, decide_eq_true_eq] at halv
        simp [halv, hne]
  · intro hv hd halv
    have hlt : ¬ 4 ≤ (objects.getD monster_id defaultObject).distance_sq
        (objects.getD PLAYER defaultObject) := by omega
    rw [halive] at halv
    simp only [ai_take_turn, hv, if_true, if_neg hlt]
    cases hf : (objects.getD PLAYER defaultObject).fighter with
    | none => rfl
    | some f =>
        rw [hf] at halv
        simp only [Option.map_some', Option.getD_some] at halv
        have hnp : ¬ 0 < f.hp := by
          intro hc
          rw [decide_eq_true hc] at halv
          exact Bool.true_eq_false.mp halv
        simp [hnp]
  · intro id dx dy
    constructor
    · intro hb
      simp only [move_by, hb, if_true]
    · intro hb
      simp only [move_by, hb, Bool.false_eq_true, if_false]

/-- C6 witness: a visible Orc seven cells to the player's right chases
(squared distance 49), and a visible adjacent Orc attacks the live player. -/
theorem C6_ai_turn_witness :
    ai_take_turn 1 fullVisible emptyMap [samplePlayer, orc_at 10 3] =
      some (move_towards 1 ([samplePlayer, orc_at 10 3].getD PLAYER defaultObject).x
        ([samplePlayer, orc_at 10 3].getD PLAYER defaultObject).y emptyMap
        [samplePlayer, orc_at 10 3], []) ∧
    ai_take_turn 1 fullVisible emptyMap [samplePlayer, orc_at 4 3] =
      some ([samplePlayer, orc_at 4 3].set PLAYER
          (Object.attack ([samplePlayer, orc_at 4 3].getD 1 defaultObject)
            ([samplePlayer, orc_at 4 3].getD PLAYER defaultObject)).1,
        (Object.attack ([samplePlayer, orc_at 4 3].getD 1 defaultObject)
          ([samplePlayer, orc_at 4 3].getD PLAYER defaultObject)).2) := by
  constructor
  · exact (C6_ai_turn 1 fullVisible emptyMap [samplePlayer, orc_at 10 3]
      (by decide) (by decide) (by decide)).2.1 (by decide) (by decide)
  · exact (C6_ai_turn 1 fullVisible emptyMap [samplePlayer, orc_at 4 3]
      (by decide) (by decide) (by decide)).2.2.1 (by decide) (by decide) (by decide)
/-- Floor adjacency is symmetric. -/
theorem adjFloor_symm (m : GameMap) : Symmetric (AdjFloor m) := by
  intro p q h
  obtain ⟨h1, h2, h3⟩ := h
  exact ⟨h2, h1, by omega⟩

/-- Floor reachability is symmetric. -/
theorem reachable_symm {m : GameMap} {p q : Int × Int}
    (h : Reachable m p q) : Reachable m q p :=
  Relation.ReflTransGen.symmetric (adjFloor_symm m) h

/-- Floor reachability is transitive. -/
theorem reachable_trans {m : GameMap} {p q r : Int × Int}
    (h1 : Reachable m p q) (h2 : Reachable m q r) : Reachable m p r :=
  Relation.ReflTransGen.trans h1 h2

/-- Carving can only help: a map with at least the same floor cells
preserves reachability. -/
theorem reachable_mono {m1 m2 : GameMap}
    (hm : ∀ x y, (m1 x y).blocked = false → (m2 x y).blocked = false)
    {p q : Int × Int} (h : Reachable m1 p q) : Reachable m2 p q := by
  induction h with
  | refl => exact Relation.ReflTransGen.refl
  | tail _ ha ih =>
      exact Relation.ReflTransGen.tail ih
        ⟨hm _ _ ha.1, hm _ _ ha.2.1, ha.2.2⟩

/-- Any two cells of an all-floor horizontal segment are mutually
reachable. -/
theorem reach_h_seg (m : GameMap) (y lo hi : Int)
    (hfloor : ∀ a, lo ≤ a → a ≤ hi → (m a y).blocked = false) :
    ∀ c d : Int, lo ≤ c → c ≤ hi → lo ≤ d → d ≤ hi → Reachable m (c, y) (d, y) := by
  have key : ∀ (n : ℕ) (c : Int), lo ≤ c → c + n ≤ hi →
      Reachable m (c, y) (c + n, y) := by
    intro n
    induction n with
    | zero => intro c h1 h2; simpa using Relation.ReflTransGen.refl
    | succ k ih =>
        intro c h1 h2
        have hk : (k : Int) + 1 = ((k + 1 : ℕ) : Int) := by push_cast; ring
        have h2k : c + (k : Int) ≤ hi := by
          rw [← hk] at h2; omega
        refine Relation.ReflTransGen.tail (ih c h1 h2k) ?_
        refine ⟨hfloor _ (by omega) h2k, hfloor _ (by omega) (by rw [← hk] at h2 ⊢; omega), ?_⟩
        show ((c + (k : Int)) - (c + ((k + 1 : ℕ) : Int))).natAbs + (y - y).natAbs = 1
        rw [← hk]
        omega
  intro c d hc1 hc2 hd1 hd2
  rcases le_total c d with h | h
  · have hr := key (d - c).toNat c hc1 (by omega)
    rwa [show c + ((d - c).toNat : Int) = d by omega] at hr
  · have hr := key (c - d).toNat d hd1 (by omega)
    rw [show d + ((c - d).toNat : Int) = c by omega] at hr
    exact reachable_symm hr

/-- Any two cells of an all-floor vertical segment are mutually reachable. -/
theorem reach_v_seg (m : GameMap) (x lo hi : Int)
    (hfloor : ∀ b, lo ≤ b → b ≤ hi → (m x b).blocked = false) :
    ∀ c d : Int, lo ≤ c → c ≤ hi → lo ≤ d → d ≤ hi → Reachable m (x, c) (x, d) := by
  have key : ∀ (n : ℕ) (c : Int), lo ≤ c → c + n ≤ hi →
      Reachable m (x, c) (x, c + n) := by
    intro n
    induction n with
    | zero => intro c h1 h2; simpa using Relation.ReflTransGen.refl
    | succ k ih =>
        intro c h1 h2
        have hk : (k : Int) + 1 = ((k + 1 : ℕ) : Int) := by push_cast; ring
        have h2k : c + (k : Int) ≤ hi := by
          rw [← hk] at h2; omega
        refine Relation.ReflTransGen.tail (ih c h1 h2k) ?_
        refine ⟨hfloor _ (by omega) h2k, hfloor _ (by omega) (by rw [← hk] at h2 ⊢; omega), ?_⟩
        show (x - x).natAbs + ((c + (k : Int)) - (c + ((k + 1 : ℕ) : Int))).natAbs = 1
        rw [← hk]
        omega
  intro c d hc1 hc2 hd1 hd2
  rcases le_total c d with h | h
  · have hr := key (d - c).toNat c hc1 (by omega)
    rwa [show c + ((d - c).toNat : Int) = d by omega] at hr
  · have hr := key (c - d).toNat d hd1 (by omega)
    rw [show d + ((c - d).toNat : Int) = c by omega] at hr
    exact reachable_symm hr

/-- Any two cells of an all-floor rectangle interior are mutually
reachable (walk the row, then the column). -/
theorem reach_rect (m : GameMap) (r : Rect)
    (hfloor : ∀ a b, r.x1 + 1 ≤ a → a < r.x2 → r.y1 + 1 ≤ b → b < r.y2 →
      (m a b).blocked = false)
    (pa pb qa qb : Int)
    (hpa1 : r.x1 + 1 ≤ pa) (hpa2 : pa < r.x2) (hpb1 : r.y1 + 1 ≤ pb) (hpb2 : pb < r.y2)
    (hqa1 : r.x1 + 1 ≤ qa) (hqa2 : qa < r.x2) (hqb1 : r.y1 + 1 ≤ qb) (hqb2 : qb < r.y2) :
    Reachable m (pa, pb) (qa, qb) := by
  have h1 : Reachable m (pa, pb) (qa, pb) :=
    reach_h_seg m pb (r.x1 + 1) (r.x2 - 1)
      (fun a ha1 ha2 => hfloor a pb ha1 (by omega) hpb1 hpb2)
      pa qa hpa1 (by omega) hqa1 (by omega)
  have h2 : Reachable m (qa, pb) (qa, qb) :=
    reach_v_seg m qa (r.y1 + 1) (r.y2 - 1)
      (fun b hb1 hb2 => hfloor qa b hqa1 hqa2 hb1 (by omega))
      pb qb hpb1 (by omega) hqb1 (by omega)
  exact reachable_trans h1 h2

/-- The integer centroid of a `Rect.new x y w h` with `w, h ≥ 2` lies in
the carved interior. -/
theorem centre_in_interior (x y w h : Int) (hw : 2 ≤ w) (hh : 2 ≤ h) :
    (Rect.new x y w h).x1 + 1 ≤ ((Rect.new x y w h).centre).1 ∧
    ((Rect.new x y w h).centre).1 < (Rect.new x y w h).x2 ∧
    (Rect.new x y w h).y1 + 1 ≤ ((Rect.new x y w h).centre).2 ∧
    ((Rect.new x y w h).centre).2 < (Rect.new x y w h).y2 := by
  simp only [Rect.new, Rect.centre]
  omega

/-- Characterisation of floor after carving a room. -/
theorem create_room_floor_cases {room : Rect} {m : GameMap} {a b : Int}
    (h : ((create_room room m) a b).blocked = false) :
    (room.x1 + 1 ≤ a ∧ a < room.x2 ∧ room.y1 + 1 ≤ b ∧ b < room.y2) ∨
    (m a b).blocked = false := by
  simp only [create_room] at h
  split at h
  · left; assumption
  · right; exact h

/-- Carving a room preserves existing floor. -/
theorem create_room_mono {room : Rect} {m : GameMap} {a b : Int}
    (h : (m a b).blocked = false) :
    ((create_room room m) a b).blocked = false := by
  simp only [create_room]
  split
  · rfl
  · exact h

/-- Interior cells are floor after carving a room. -/
theorem create_room_floor {room : Rect} {m : GameMap} {a b : Int}
    (h1 : room.x1 + 1 ≤ a) (h2 : a < room.x2) (h3 : room.y1 + 1 ≤ b)
    (h4 : b < room.y2) :
    ((create_room room m) a b).blocked = false := by
  simp [create_room, Tile.empty, h1, h2, h3, h4]

/-- Characterisation of floor after carving a horizontal tunnel. -/
theorem create_h_tunnel_floor_cases {x1 x2 y : Int} {m : GameMap} {a b : Int}
    (h : ((create_h_tunnel x1 x2 y m) a b).blocked = false) :
    (min x1 x2 ≤ a ∧ a ≤ max x1 x2 ∧ b = y) ∨ (m a b).blocked = false := by
  simp only [create_h_tunnel] at h
  split at h
  · left; assumption
  · right; exact h

/-- Carving a horizontal tunnel preserves existing floor. -/
theorem create_h_tunnel_mono {x1 x2 y : Int} {m : GameMap} {a b : Int}
    (h : (m a b).blocked = false) :
    ((create_h_tunnel x1 x2 y m) a b).blocked = false := by
  simp only [create_h_tunnel]
  split
  · rfl
  · exact h

/-- Cells of a horizontal tunnel's row are floor after carving it. -/
theorem create_h_tunnel_floor {x1 x2 y : Int} {m : GameMap} {a : Int}
    (h1 : min x1 x2 ≤ a) (h2 : a ≤ max x1 x2) :
    ((create_h_tunnel x1 x2 y m) a y).blocked = false := by
  simp [create_h_tunnel, Tile.empty, h1, h2]

/-- Characterisation of floor after carving a vertical tunnel. -/
theorem create_v_tunnel_floor_cases {y1 y2 x : Int} {m : GameMap} {a b : Int}
    (h : ((create_v_tunnel y1 y2 x m) a b).blocked = false) :
    (min y1 y2 ≤ b ∧ b ≤ max y1 y2 ∧ a = x) ∨ (m a b).blocked = false := by
  simp only [create_v_tunnel] at h
  split at h
  · left; assumption
  · right; exact h

/-- Carving a vertical tunnel preserves existing floor. -/
theorem create_v_tunnel_mono {y1 y2 x : Int} {m : GameMap} {a b : Int}
    (h : (m a b).blocked = false) :
    ((create_v_tunnel y1 y2 x m) a b).blocked = false := by
  simp only [create_v_tunnel]
  split
  · rfl
  · exact h

/-- Cells of a vertical tunnel's column are floor after carving it. -/
theorem create_v_tunnel_floor {y1 y2 x : Int} {m : GameMap} {b : Int}
    (h1 : min y1 y2 ≤ b) (h2 : b ≤ max y1 y2) :
    ((create_v_tunnel y1 y2 x m) x b).blocked = false := by
  simp [create_v_tunnel, Tile.empty, h1, h2]
/-- Setting an element keeps a list nonempty. -/
theorem set_ne_nil {l : List Object} (h : l ≠ []) (i : Nat) (v : Object) :
    l.set i v ≠ [] := by
  cases l with
  | nil => exact absurd rfl h
  | cons o rest => cases i <;> simp

/-- Extending a connected map with a room linked by a tunnel keeps every
floor cell reachable from the start, given a case split of the new floor
into the two tunnel legs, the room interior, and old floor. -/
theorem reach_extend (m2 s0map : GameMap) (new : Rect)
    (start pC : Int × Int) (cx cy : Int)
    (hpres : ∀ x y, (s0map x y).blocked = false → (m2 x y).blocked = false)
    (hreach0 : ∀ x y, (s0map x y).blocked = false → Reachable s0map start (x, y))
    (hpfloor : (s0map pC.1 pC.2).blocked = false)
    (hint : ∀ a b, new.x1 + 1 ≤ a → a < new.x2 → new.y1 + 1 ≤ b → b < new.y2 →
      (m2 a b).blocked = false)
    (hcx1 : new.x1 + 1 ≤ cx) (hcx2 : cx < new.x2)
    (hcy1 : new.y1 + 1 ≤ cy) (hcy2 : cy < new.y2)
    (hconn : Reachable m2 (pC.1, pC.2) (cx, cy))
    (hcases : ∀ a b, (m2 a b).blocked = false →
      Reachable m2 (pC.1, pC.2) (a, b) ∨ Reachable m2 (cx, cy) (a, b) ∨
      (new.x1 + 1 ≤ a ∧ a < new.x2 ∧ new.y1 + 1 ≤ b ∧ b < new.y2) ∨
      (s0map a b).blocked = false) :
    ∀ x y, (m2 x y).blocked = false → Reachable m2 start (x, y) := by
  intro x y hfl
  have hstartP : Reachable m2 start (pC.1, pC.2) :=
    reachable_mono hpres (hreach0 pC.1 pC.2 hpfloor)
  rcases hcases x y hfl with h | h | h | h
  · exact reachable_trans hstartP h
  · exact reachable_trans (reachable_trans hstartP hconn) h
  · exact reachable_trans (reachable_trans hstartP hconn)
      (reach_rect m2 new hint cx cy x y hcx1 hcx2 hcy1 hcy2 h.1 h.2.1 h.2.2.1
        h.2.2.2)
  · exact reachable_mono hpres (hreach0 x y h)

/-- One accepted or rejected trial preserves the generation invariant. -/
theorem genInv_step (s : GenState) (t : Trial) (hWF : t.WF) (hInv : GenInv s) :
    GenInv (make_map_step s t) := by
  obtain ⟨hne, hreach, hhead, hlast, hempty⟩ := hInv
  obtain ⟨hw1, hw2, hh1, hh2, hx1, hx2, hy1, hy2, hdr, hdraws⟩ := hWF
  have hw2' : (2:Int) ≤ t.w := by unfold ROOM_MIN_SIZE at hw1; omega
  have hh2' : (2:Int) ≤ t.h := by unfold ROOM_MIN_SIZE at hh1; omega
  have hcin := centre_in_interior t.x t.y t.w t.h hw2' hh2'
  by_cases hf : (s.rooms.any fun r =>
      (Rect.new t.x t.y t.w t.h).intersects_with r) = true
  · simp only [make_map_step, hf, if_true]
    exact ⟨hne, hreach, hhead, hlast, hempty⟩
  · rw [Bool.not_eq_true] at hf
    obtain ⟨hg0, hne1⟩ := place_objects_getD_zero t.draws s.objects
      (create_room (Rect.new t.x t.y t.w t.h) s.map) hne
    have hppres : playerPos (place_objects t.draws s.objects
        (create_room (Rect.new t.x t.y t.w t.h) s.map)) = playerPos s.objects := by
      unfold playerPos PLAYER
      rw [hg0]
    cases hrooms : s.rooms with
    | nil =>
        have hiE : s.rooms.isEmpty = true := by rw [hrooms]; rfl
        have hstep : make_map_step s t =
            { map := create_room (Rect.new t.x t.y t.w t.h) s.map,
              rooms := [Rect.new t.x t.y t.w t.h],
              objects := (place_objects t.draws s.objects
                  (create_room (Rect.new t.x t.y t.w t.h) s.map)).set PLAYER
                (((place_objects t.draws s.objects
                    (create_room (Rect.new t.x t.y t.w t.h) s.map)).getD PLAYER
                  defaultObject).set_pos
                  ((Rect.new t.x t.y t.w t.h).centre).1
                  ((Rect.new t.x t.y t.w t.h).centre).2) } := by
          simp only [make_map_step, hf, Bool.false_eq_true, if_false, hiE,
            if_true, hrooms, List.nil_append]
          simp
        rw [hstep]
        unfold GenInv
        dsimp only
        have hpp : playerPos ((place_objects t.draws s.objects
            (create_room (Rect.new t.x t.y t.w t.h) s.map)).set PLAYER
            (((place_objects t.draws s.objects
                (create_room (Rect.new t.x t.y t.w t.h) s.map)).getD PLAYER
              defaultObject).set_pos
              ((Rect.new t.x t.y t.w t.h).centre).1
              ((Rect.new t.x t.y t.w t.h).centre).2)) =
            (Rect.new t.x t.y t.w t.h).centre := by
          unfold playerPos PLAYER
          rw [getD_zero_set_zero _ _ hne1]
          simp [Object.set_pos]
        refine ⟨set_ne_nil hne1 PLAYER _, ?_, ?_, ?_, ?_⟩
        · intro x y hfl
          rw [hpp]
          rcases create_room_floor_cases hfl with hint | hold
          · have hr := reach_rect (create_room (Rect.new t.x t.y t.w t.h) s.map)
              (Rect.new t.x t.y t.w t.h)
              (fun a b h1 h2 h3 h4 => create_room_floor h1 h2 h3 h4)
              ((Rect.new t.x t.y t.w t.h).centre).1
              ((Rect.new t.x t.y t.w t.h).centre).2 x y
              hcin.1 hcin.2.1 hcin.2.2.1 hcin.2.2.2
              hint.1 hint.2.1 hint.2.2.1 hint.2.2.2
            exact hr
          · rw [hempty hrooms x y] at hold
            simp at hold
        · intro r rs hceq
          injection hceq with h1 h2
          rw [hpp, h1]
        · intro hrne
          simp only [List.getLastD]
          exact create_room_floor hcin.1 hcin.2.1 hcin.2.2.1 hcin.2.2.2
        · intro hcon
          simp at hcon
    | cons r0 rs =>
        have hiE : s.rooms.isEmpty = false := by rw [hrooms]; rfl
        have hconsne : s.rooms ≠ [] := by rw [hrooms]; simp
        have hstep : make_map_step s t =
            { map := if t.coin then
                  create_v_tunnel ((s.rooms.getLastD (Rect.new 0 0 0 0)).centre).2
                    ((Rect.new t.x t.y t.w t.h).centre).2
                    ((Rect.new t.x t.y t.w t.h).centre).1
                    (create_h_tunnel ((s.rooms.getLastD (Rect.new 0 0 0 0)).centre).1
                      ((Rect.new t.x t.y t.w t.h).centre).1
                      ((s.rooms.getLastD (Rect.new 0 0 0 0)).centre).2
                      (create_room (Rect.new t.x t.y t.w t.h) s.map))
                else
                  create_h_tunnel ((s.rooms.getLastD (Rect.new 0 0 0 0)).centre).1
                    ((Rect.new t.x t.y t.w t.h).centre).1
                    ((Rect.new t.x t.y t.w t.h).centre).2
                    (create_v_tunnel ((s.rooms.getLastD (Rect.new 0 0 0 0)).centre).2
                      ((Rect.new t.x t.y t.w t.h).centre).2
                      ((s.rooms.getLastD (Rect.new 0 0 0 0)).centre).1
                      (create_room (Rect.new t.x t.y t.w t.h) s.map)),
              rooms := s.rooms ++ [Rect.new t.x t.y t.w t.h],
              objects := place_objects t.draws s.objects
                (create_room (Rect.new t.x t.y t.w t.h) s.map) } := by
          simp only [make_map_step, hf, Bool.false_eq_true, if_false, hiE]
        rw [hstep]
        unfold GenInv
        dsimp only
        have hplast := hlast hconsne
        refine ⟨hne1, ?_, ?_, ?_, ?_⟩
        · intro x y hfl
          rw [hppres]
          revert hfl
          by_cases hcoin : t.coin = true
          · rw [hcoin, if_pos rfl]
            intro hfl
            refine reach_extend _ s.map (Rect.new t.x t.y t.w t.h)
              (playerPos s.objects) ((s.rooms.getLastD (Rect.new 0 0 0 0)).centre)
              ((Rect.new t.x t.y t.w t.h).centre).1
              ((Rect.new t.x t.y t.w t.h).centre).2
              (fun a b h =>
                create_v_tunnel_mono (create_h_tunnel_mono (create_room_mono h)))
              hreach hplast
              (fun a b h1 h2 h3 h4 =>
                create_v_tunnel_mono (create_h_tunnel_mono
                  (create_room_floor h1 h2 h3 h4)))
              hcin.1 hcin.2.1 hcin.2.2.1 hcin.2.2.2 ?_ ?_ x y hfl
            · have hhrow : ∀ a,
                  min ((s.rooms.getLastD (Rect.new 0 0 0 0)).centre).1
                    ((Rect.new t.x t.y t.w t.h).centre).1 ≤ a →
                  a ≤ max ((s.rooms.getLastD (Rect.new 0 0 0 0)).centre).1
                    ((Rect.new t.x t.y t.w t.h).centre).1 →
                  ((create_v_tunnel ((s.rooms.getLastD (Rect.new 0 0 0 0)).centre).2
                      ((Rect.new t.x t.y t.w t.h).centre).2
                      ((Rect.new t.x t.y t.w t.h).centre).1
                      (create_h_tunnel ((s.rooms.getLastD (Rect.new 0 0 0 0)).centre).1
                        ((Rect.new t.x t.y t.w t.h).centre).1
                        ((s.rooms.getLastD (Rect.new 0 0 0 0)).centre).2
                        (create_room (Rect.new t.x t.y t.w t.h) s.map))) a
                    ((s.rooms.getLastD (Rect.new 0 0 0 0)).centre).2).blocked = false :=
                fun a h1 h2 => create_v_tunnel_mono (create_h_tunnel_floor h1 h2)
              have hvcol : ∀ b,
                  min ((s.rooms.getLastD (Rect.new 0 0 0 0)).centre).2
                    ((Rect.new t.x t.y t.w t.h).centre).2 ≤ b →
                  b ≤ max ((s.rooms.getLastD (Rect.new 0 0 0 0)).centre).2
                    ((Rect.new t.x t.y t.w t.h).centre).2 →
                  ((create_v_tunnel ((s.rooms.getLastD (Rect.new 0 0 0 0)).centre).2
                      ((Rect.new t.x t.y t.w t.h).centre).2
                      ((Rect.new t.x t.y t.w t.h).centre).1
                      (create_h_tunnel ((s.rooms.getLastD (Rect.new 0 0 0 0)).centre).1
                        ((Rect.new t.x t.y t.w t.h).centre).1
                        ((s.rooms.getLastD (Rect.new 0 0 0 0)).centre).2
                        (create_room (Rect.new t.x t.y t.w t.h) s.map)))
                    ((Rect.new t.x t.y t.w t.h).centre).1 b).blocked = false :=
                fun b h1 h2 => create_v_tunnel_floor h1 h2
              exact reachable_trans
                (reach_h_seg _ ((s.rooms.getLastD (Rect.new 0 0 0 0)).centre).2
                  (min ((s.rooms.getLastD (Rect.new 0 0 0 0)).centre).1
                    ((Rect.new t.x t.y t.w t.h).centre).1)
                  (max ((s.rooms.getLastD (Rect.new 0 0 0 0)).centre).1
                    ((Rect.new t.x t.y t.w t.h).centre).1)
                  hhrow _ _ (min_le_left _ _) (le_max_left _ _)
                  (min_le_right _ _) (le_max_right _ _))
                (reach_v_seg _ ((Rect.new t.x t.y t.w t.h).centre).1
                  (min ((s.rooms.getLastD (Rect.new 0 0 0 0)).centre).2
                    ((Rect.new t.x t.y t.w t.h).centre).2)
                  (max ((s.rooms.getLastD (Rect.new 0 0 0 0)).centre).2
                    ((Rect.new t.x t.y t.w t.h).centre).2)
                  hvcol _ _ (min_le_left _ _) (le_max_left _ _)
                  (min_le_right _ _) (le_max_right _ _))
            · intro a b hab
              rcases create_v_tunnel_floor_cases hab with ⟨h1, h2, rfl⟩ | hab2
              · right; left
                exact reach_v_seg _ ((Rect.new t.x t.y t.w t.h).centre).1
                  (min ((s.rooms.getLastD (Rect.new 0 0 0 0)).centre).2
                    ((Rect.new t.x t.y t.w t.h).centre).2)
                  (max ((s.rooms.getLastD (Rect.new 0 0 0 0)).centre).2
                    ((Rect.new t.x t.y t.w t.h).centre).2)
                  (fun b h1 h2 => create_v_tunnel_floor h1 h2) _ _
                  (min_le_right _ _) (le_max_right _ _) h1 h2
              · rcases create_h_tunnel_floor_cases hab2 with ⟨h1, h2, rfl⟩ | hab3
                · left
                  exact reach_h_seg _ ((s.rooms.getLastD (Rect.new 0 0 0 0)).centre).2
                    (min ((s.rooms.getLastD (Rect.new 0 0 0 0)).centre).1
                      ((Rect.new t.x t.y t.w t.h).centre).1)
                    (max ((s.rooms.getLastD (Rect.new 0 0 0 0)).centre).1
                      ((Rect.new t.x t.y t.w t.h).centre).1)
                    (fun a h1 h2 =>
                      create_v_tunnel_mono (create_h_tunnel_floor h1 h2)) _ _
                    (min_le_left _ _) (le_max_left _ _) h1 h2
                · rcases create_room_floor_cases hab3 with hint | hold
                  · right; right; left; exact hint
                  · right; right; right; exact hold
          · rw [Bool.not_eq_true] at hcoin
            rw [hcoin]
            simp only [Bool.false_eq_true, if_false]
            intro hfl
            refine reach_extend _ s.map (Rect.new t.x t.y t.w t.h)
              (playerPos s.objects) ((s.rooms.getLastD (Rect.new 0 0 0 0)).centre)
              ((Rect.new t.x t.y t.w t.h).centre).1
              ((Rect.new t.x t.y t.w t.h).centre).2
              (fun a b h =>
                create_h_tunnel_mono (create_v_tunnel_mono (create_room_mono h)))
              hreach hplast
              (fun a b h1 h2 h3 h4 =>
                create_h_tunnel_mono (create_v_tunnel_mono
                  (create_room_floor h1 h2 h3 h4)))
              hcin.1 hcin.2.1 hcin.2.2.1 hcin.2.2.2 ?_ ?_ x y hfl
            · exact reachable_trans
                (reach_v_seg _ ((s.rooms.getLastD (Rect.new 0 0 0 0)).centre).1
                  (min ((s.rooms.getLastD (Rect.new 0 0 0 0)).centre).2
                    ((Rect.new t.x t.y t.w t.h).centre).2)
                  (max ((s.rooms.getLastD (Rect.new 0 0 0 0)).centre).2
                    ((Rect.new t.x t.y t.w t.h).centre).2)
                  (fun b h1 h2 =>
                    create_h_tunnel_mono (create_v_tunnel_floor h1 h2)) _ _
                  (min_le_left _ _) (le_max_left _ _)
                  (min_le_right _ _) (le_max_right _ _))
                (reach_h_seg _ ((Rect.new t.x t.y t.w t.h).centre).2
                  (min ((s.rooms.getLastD (Rect.new 0 0 0 0)).centre).1
                    ((Rect.new t.x t.y t.w t.h).centre).1)
                  (max ((s.rooms.getLastD (Rect.new 0 0 0 0)).centre).1
                    ((Rect.new t.x t.y t.w t.h).centre).1)
                  (fun a h1 h2 => create_h_tunnel_floor h1 h2) _ _
                  (min_le_left _ _) (le_max_left _ _)
                  (min_le_right _ _) (le_max_right _ _))
            · intro a b hab
              rcases create_h_tunnel_floor_cases hab with ⟨h1, h2, rfl⟩ | hab2
              · right; left
                exact reach_h_seg _ ((Rect.new t.x t.y t.w t.h).centre).2
                  (min ((s.rooms.getLastD (Rect.new 0 0 0 0)).centre).1
                    ((Rect.new t.x t.y t.w t.h).centre).1)
                  (max ((s.rooms.getLastD (Rect.new 0 0 0 0)).centre).1
                    ((Rect.new t.x t.y t.w t.h).centre).1)
                  (fun a h1 h2 => create_h_tunnel_floor h1 h2) _ _
                  (min_le_right _ _) (le_max_right _ _) h1 h2
              · rcases create_v_tunnel_floor_cases hab2 with ⟨h1, h2, rfl⟩ | hab3
                · left
                  exact reach_v_seg _ ((s.rooms.getLastD (Rect.new 0 0 0 0)).centre).1
                    (min ((s.rooms.getLastD (Rect.new 0 0 0 0)).centre).2
                      ((Rect.new t.x t.y t.w t.h).centre).2)
                    (max ((s.rooms.getLastD (Rect.new 0 0 0 0)).centre).2
                      ((Rect.new t.x t.y t.w t.h).centre).2)
                    (fun b h1 h2 =>
                      create_h_tunnel_mono (create_v_tunnel_floor h1 h2)) _ _
                    (min_le_left _ _) (le_max_left _ _) h1 h2
                · rcases create_room_floor_cases hab3 with hint | hold
                  · right; right; left; exact hint
                  · right; right; right; exact hold
        · intro r rs' hceq
          rw [hrooms] at hceq
          rw [List.cons_append] at hceq
          injection hceq with h1 h2
          rw [hppres, ← h1]
          exact hhead r0 rs hrooms
        · intro hrne
          rw [List.getLastD_concat]
          by_cases hcoin : t.coin = true
          · rw [hcoin, if_pos rfl]
            exact create_v_tunnel_mono (create_h_tunnel_mono
              (create_room_floor hcin.1 hcin.2.1 hcin.2.2.1 hcin.2.2.2))
          · rw [Bool.not_eq_true] at hcoin
            rw [hcoin]
            simp only [Bool.false_eq_true, if_false]
            exact create_h_tunnel_mono (create_v_tunnel_mono
              (create_room_floor hcin.1 hcin.2.1 hcin.2.2.1 hcin.2.2.2))
        · intro hcon
          simp at hcon
/-- The generation invariant holds through any run of well-formed trials. -/
theorem genInv_fold (trials : List Trial) (s : GenState)
    (hWF : ∀ t ∈ trials, t.WF) (h : GenInv s) :
    GenInv (trials.foldl make_map_step s) := by
  induction trials generalizing s with
  | nil => simpa using h
  | cons t ts ih =>
      exact ih (make_map_step s t) (fun u hu => hWF u (by simp [hu]))
        (genInv_step s t (hWF t (by simp)) h)

/-- The generation invariant holds at the start. -/
theorem genInv_init : GenInv (initGenState initial_objects) := by
  refine ⟨by simp [initial_objects, initGenState], ?_, ?_, ?_, ?_⟩
  · intro x y hfl
    simp [initGenState, Tile.wall] at hfl
  · intro r rs hceq
    simp [initGenState] at hceq
  · intro hcon
    simp [initGenState] at hcon
  · intro _ x y
    rfl

/-- C1: for every sequence of in-range random draws, every floor tile of
the generated map is reachable from the player's final position via
orthogonally adjacent floor tiles, and that position is the integer
centroid of the first accepted room. -/
theorem C1_floor_reachable (trials : List Trial) (hWF : ∀ t ∈ trials, t.WF) :
    (∀ r rs, (make_map_full trials initial_objects).rooms = r :: rs →
      playerPos (make_map trials initial_objects).2 = r.centre) ∧
    (∀ x y, ((make_map trials initial_objects).1 x y).blocked = false →
      Reachable (make_map trials initial_objects).1
        (playerPos (make_map trials initial_objects).2) (x, y)) := by
  have h := genInv_fold trials (initGenState initial_objects) hWF genInv_init
  exact ⟨h.2.2.1, h.2.1⟩

/-- C1 witness: one well-formed 6×6 room at the origin; the interior cell
(4, 4) is reachable from the player start (3, 3). -/
theorem C1_floor_reachable_witness :
    sampleTrial.WF ∧
    Reachable (make_map [sampleTrial] initial_objects).1
      (playerPos (make_map [sampleTrial] initial_objects).2) (4, 4) := by
  constructor
  · decide
  · exact (C1_floor_reachable [sampleTrial] (by decide)).2 4 4 (by decide)
